import Mathlib

/-!
Shallow embedding of the feedforger content-acquisition pipeline
(repository RoCry/feedforger), translated from the source files
`src/db.py`, `src/network.py`, `src/utils.py` and `src/main.py`.

The SQLite table `feeds` (one row per cache key, key = feed URL or item
URL, `id` is the primary key) is modelled as an association list with
unique keys; a single-row SELECT by primary key is `assocFind`, the
`INSERT ... ON CONFLICT(id) DO UPDATE` upsert is `setRow`.  Timestamps
are integers (Unix seconds, as stored by `int(datetime.timestamp())`).
-/

namespace FeedForger

/-- Row of the `feeds` table created in `Database.init` (src/db.py):
`id TEXT PRIMARY KEY, created_at INTEGER, updated_at INTEGER,
content TEXT (nullable), continue_fail_count INTEGER, error_reason TEXT
(nullable)`. -/
structure Row where
  content : Option String
  createdAt : Int
  updatedAt : Int
  failCount : Nat
  errorReason : Option String
deriving DecidableEq

/-- The `feeds` table: association list keyed by the TEXT primary key. -/
abbrev Store := List (String × Row)

/-- Primary-key lookup (`SELECT ... FROM feeds WHERE id = ?`). -/
def assocFind {α : Type} : List (String × α) → String → Option α
  | [], _ => none
  | (k, v) :: rest, key => if k = key then some v else assocFind rest key

/-- Primary-key upsert on the association list: replace the binding for
`k` in place if present, otherwise insert it.  Models the row-level
effect of `INSERT ... ON CONFLICT(id) DO UPDATE` in src/db.py. -/
def setRow : Store → String → Row → Store
  | [], k, r => [(k, r)]
  | (k', r') :: rest, k, r =>
    if k' = k then (k, r) :: rest else (k', r') :: setRow rest k r

/-- `Database.set_content` (src/db.py lines 82-128).  On `success` the
upsert stores the given `content`, resets `continue_fail_count` to 0 and
clears `error_reason`; on failure it stores NULL content (`VALUES (?,
NULL, ...)` and `content = excluded.content`), increments the prior
`continue_fail_count` (1 for a fresh row) and stores `error_reason`.
`created_at` is kept on conflict (the DO UPDATE clause does not touch
it) and `updated_at` is set to `now` in both branches.  The Python
`success` parameter is tested by truthiness inside `if success:`; the
caller-side truthiness conversion is done at each call site of this
model. -/
def set_content (s : Store) (url : String) (content : Option String)
    (success : Bool) (errorReason : Option String) (now : Int) : Store :=
  if success then
    match assocFind s url with
    | none => setRow s url ⟨content, now, now, 0, none⟩
    | some old => setRow s url ⟨content, old.createdAt, now, 0, none⟩
  else
    match assocFind s url with
    | none => setRow s url ⟨none, now, now, 1, errorReason⟩
    | some old => setRow s url ⟨none, old.createdAt, now, old.failCount + 1, errorReason⟩

/-- `Database.get_content` (src/db.py lines 35-51): `cutoff = now - ttl`;
the SELECT keeps the row iff `updated_at > cutoff`; the Python then
returns `row[0]` when it is not None and falls through to `return None`
otherwise, i.e. it returns the (possibly null) `content` of a fresh row
and nothing for a stale or missing row. -/
def get_content (s : Store) (url : String) (ttl : Int) (now : Int) : Option String :=
  let cutoff := now - ttl
  match assocFind s url with
  | some row => if row.updatedAt > cutoff then row.content else none
  | none => none

/-- Per-row effect of the result loop in `Database.batch_get_content`
(src/db.py lines 66-78): the SELECT's WHERE clause keeps the row iff
`updated_at > cutoff`, and the loop assigns `result[url] = content` only
when `content is not None` (the initial value `None` is kept
otherwise). -/
def batchRowValue (row : Row) (cutoff : Int) : Option String :=
  if row.updatedAt > cutoff then
    match row.content with
    | some c => some c
    | none => none
  else none

/-- `Database.batch_get_content` (src/db.py lines 53-80): returns `{}`
for an empty url list; otherwise initializes `result = {url: None for
url in urls}` (the Python dict deduplicates the requested keys, modelled
by `List.dedup`) and overwrites the entries of fresh rows with non-null
content.  The table's primary key guarantees at most one row per key,
which `assocFind` models. -/
def batch_get_content (s : Store) (urls : List String) (ttl : Int)
    (now : Int) : List (String × Option String) :=
  if urls.isEmpty then []
  else
    let cutoff := now - ttl
    urls.dedup.map fun u =>
      (u, match assocFind s u with
          | some row => batchRowValue row cutoff
          | none => none)

/-- `Database.cleanup` (src/db.py lines 144-192), parameterized by the
retention cutoff timestamp and by the configured key set (the code
computes `recipe_urls` from `get_recipes()`; the claim's `known_keys`).
Phase 1: `DELETE FROM feeds WHERE updated_at < cutoff AND
continue_fail_count = 0`.  Phase 2: reads the ids still present after
phase 1 (`get_all_feed_ids` on the same connection) and deletes every
row whose id is not a configured key.  Returns the surviving table and
the summed `rowcount` of both phases. -/
def cleanup (s : Store) (cutoff : Int) (knownKeys : List String) : Store × Nat :=
  let s1 := s.filter fun p =>
    !(decide (p.2.updatedAt < cutoff) && decide (p.2.failCount = 0))
  let d1 := s.length - s1.length
  let s2 := s1.filter fun p => decide (p.1 ∈ knownKeys)
  let d2 := s1.length - s2.length
  (s2, d1 + d2)

/-! ### Helper lemmas about the store -/

theorem assocFind_setRow_self (s : Store) (k : String) (r : Row) :
    assocFind (setRow s k r) k = some r := by
  induction s with
  | nil => simp [setRow, assocFind]
  | cons p rest ih =>
    obtain ⟨k', r'⟩ := p
    by_cases h : k' = k
    · simp [setRow, assocFind, h]
    · simp [setRow, assocFind, h, ih]

theorem assocFind_setRow_ne (s : Store) (k k' : String) (r : Row)
    (h : k' ≠ k) : assocFind (setRow s k r) k' = assocFind s k' := by
  have h2 : k ≠ k' := Ne.symm h
  induction s with
  | nil => simp [setRow, assocFind, h2]
  | cons p rest ih =>
    obtain ⟨k'', r''⟩ := p
    by_cases hk : k'' = k
    · subst hk
      simp [setRow, assocFind, h2]
    · simp [setRow, assocFind, hk, ih]

theorem set_content_find_ne (s : Store) (url k' : String)
    (c : Option String) (b : Bool) (er : Option String) (now : Int)
    (h : k' ≠ url) :
    assocFind (set_content s url c b er now) k' = assocFind s k' := by
  unfold set_content
  cases b <;> cases assocFind s url <;>
    simp [assocFind_setRow_ne _ _ _ _ h]

theorem set_content_self_success (s : Store) (url : String)
    (c : Option String) (er : Option String) (now : Int) :
    ∃ row, assocFind (set_content s url c true er now) url = some row ∧
      row.content = c ∧ row.failCount = 0 ∧ row.errorReason = none ∧
      row.updatedAt = now := by
  unfold set_content
  cases h : assocFind s url <;> simp [h, assocFind_setRow_self]

theorem set_content_self_failure (s : Store) (url : String)
    (c : Option String) (er : Option String) (now : Int) :
    ∃ row, assocFind (set_content s url c false er now) url = some row ∧
      row.content = none ∧
      row.failCount = (match assocFind s url with
        | none => 1
        | some old => old.failCount + 1) ∧
      row.errorReason = er ∧ row.updatedAt = now := by
  unfold set_content
  cases h : assocFind s url <;> simp [h, assocFind_setRow_self]

/-! ### C3: get_content semantics -/

/-- C3: for every key and ttl, `get_content` returns the stored content
iff a row for that key exists, its `updated_at` satisfies
`now - updated_at < ttl` (the code's `updated_at > now - ttl`), and its
`content` is non-null; in every other case (no row, stale row, or row
with null content, in particular any row written by a failed set) it
returns nothing. -/
theorem get_content_spec (s : Store) (k : String) (ttl now : Int) (c : String) :
    get_content s k ttl now = some c ↔
      ∃ row, assocFind s k = some row ∧ now - row.updatedAt < ttl ∧
        row.content = some c := by
  unfold get_content
  cases h : assocFind s k with
  | none => simp
  | some row =>
    simp only [h, Option.some.injEq]
    by_cases hlt : row.updatedAt > now - ttl
    · have hiff : now - row.updatedAt < ttl := by omega
      simp [hlt, hiff]
    · have hiff : ¬ (now - row.updatedAt < ttl) := by omega
      simp [hlt, hiff]

/-! ### C4: the success/failure exclusivity invariant -/

/-- A row is well-formed when non-null content implies a zeroed failure
state. -/
def RowOk (r : Row) : Prop :=
  r.content ≠ none → r.failCount = 0 ∧ r.errorReason = none

/-- Every row of the store is well-formed. -/
def StoreOk (s : Store) : Prop :=
  ∀ k r, assocFind s k = some r → RowOk r

/-- C4: every `set_content` write preserves the invariant that a row
with non-null content has `fail_count = 0` and `error_reason = null`
(so it holds for every store reachable from the empty table); moreover
a successful set writes `fail_count = 0` and `error_reason = null`, and
a failed set forces `content = null` regardless of the content
argument. -/
theorem set_content_invariant (s : Store) (k : String) (c : Option String)
    (b : Bool) (er : Option String) (now : Int) (h : StoreOk s) :
    StoreOk (set_content s k c b er now) ∧
    (b = true → ∀ row, assocFind (set_content s k c b er now) k = some row →
      row.failCount = 0 ∧ row.errorReason = none) ∧
    (b = false → ∀ row, assocFind (set_content s k c b er now) k = some row →
      row.content = none) := by
  refine ⟨?_, ?_, ?_⟩
  · intro k' r hr
    by_cases hk : k' = k
    · subst hk
      cases b
      · obtain ⟨row, hfind, hcont, _, _, _⟩ := set_content_self_failure s k' c er now
        rw [hfind] at hr
        cases hr
        intro hc
        exact absurd hcont hc
      · obtain ⟨row, hfind, hcont, hfail, herr, _⟩ := set_content_self_success s k' c er now
        rw [hfind] at hr
        cases hr
        intro _
        exact ⟨hfail, herr⟩
    · rw [set_content_find_ne s k k' c b er now hk] at hr
      exact h k' r hr
  · rintro rfl row hrow
    obtain ⟨row', hfind, _, hfail, herr, _⟩ := set_content_self_success s k c er now
    rw [hfind] at hrow
    cases hrow
    exact ⟨hfail, herr⟩
  · rintro rfl row hrow
    obtain ⟨row', hfind, hcont, _, _, _⟩ := set_content_self_failure s k c er now
    rw [hfind] at hrow
    cases hrow
    exact hcont

/-- Witness for C4 at a concrete input: the empty store satisfies the
invariant, and so does the store after one successful write. -/
theorem set_content_invariant_witness :
    StoreOk (set_content [] "a" (some "x") true none 5) :=
  (set_content_invariant [] "a" (some "x") true none 5
    (fun _ _ hr => Option.noConfusion hr)).1

/-! ### C5: cleanup -/

/-- C5: `cleanup` deletes exactly the rows where (`updated_at` is older
than the retention cutoff AND `fail_count = 0`) OR (the key is not in
the configured key set), and the returned counter is the number of
deleted rows.  Consequently rows with `fail_count > 0` survive the
time-based phase, and recent successful rows with a known key are left
untouched. -/
theorem cleanup_spec (s : Store) (cutoff : Int) (known : List String) :
    (∀ p : String × Row, p ∈ (cleanup s cutoff known).1 ↔
        p ∈ s ∧ ¬((p.2.updatedAt < cutoff ∧ p.2.failCount = 0) ∨ p.1 ∉ known)) ∧
    (cleanup s cutoff known).2 + ((cleanup s cutoff known).1).length = s.length := by
  constructor
  · intro p
    simp only [cleanup, List.mem_filter, Bool.not_eq_true', Bool.and_eq_false_iff,
      decide_eq_false_iff_not, decide_eq_true_eq]
    constructor
    · rintro ⟨⟨hs, hfail⟩, hknown⟩
      refine ⟨hs, ?_⟩
      rintro (⟨h1, h2⟩ | h3)
      · rcases hfail with h | h
        · exact h h1
        · exact h h2
      · exact h3 hknown
    · rintro ⟨hs, hnot⟩
      refine ⟨⟨hs, ?_⟩, ?_⟩
      · by_cases h1 : p.2.updatedAt < cutoff
        · right
          intro h2
          exact hnot (Or.inl ⟨h1, h2⟩)
        · exact Or.inl h1
      · by_contra hk
        exact hnot (Or.inr hk)
  · simp only [cleanup]
    have h1 := List.length_filter_le
      (fun p : String × Row =>
        !(decide (p.2.updatedAt < cutoff) && decide (p.2.failCount = 0))) s
    have h2 := List.length_filter_le
      (fun p : String × Row => decide (p.1 ∈ known))
      (s.filter fun p =>
        !(decide (p.2.updatedAt < cutoff) && decide (p.2.failCount = 0)))
    omega

/-! ### C6: consecutive failures -/

/-- A sequence of failed `set_content` calls for the key `k`: one call
per element of `rs`, each carrying an error reason and a timestamp. -/
def apply_failures (s : Store) (k : String) (rs : List (String × Int)) : Store :=
  rs.foldl (fun acc p => set_content acc k none false (some p.1) p.2) s

/-- The `continue_fail_count` the upsert would read for key `k`
(0 for a missing row, as in the INSERT branch). -/
def currentFail (s : Store) (k : String) : Nat :=
  match assocFind s k with
  | none => 0
  | some r => r.failCount

theorem apply_failures_find (k : String) (rs : List (String × Int)) :
    ∀ s : Store, rs ≠ [] →
      ∃ row, assocFind (apply_failures s k rs) k = some row ∧
        row.failCount = currentFail s k + rs.length ∧
        row.errorReason = rs.getLast?.map Prod.fst ∧
        row.content = none := by
  induction rs with
  | nil => intro s h; exact absurd rfl h
  | cons p rest ih =>
    intro s _
    rcases hr : rest with _ | ⟨q, rest'⟩
    · obtain ⟨row, hfind, hcont, hfail, herr, _⟩ :=
        set_content_self_failure s k none (some p.1) p.2
      refine ⟨row, hfind, ?_, ?_, hcont⟩
      · unfold currentFail
        cases h : assocFind s k <;> simp [h] at hfail <;> simp [hfail]
      · simpa using herr
    · have hne : rest ≠ [] := by simp [hr]
      rw [← hr]
      have hstep : apply_failures s k (p :: rest) =
          apply_failures (set_content s k none false (some p.1) p.2) k rest := rfl
      rw [hstep]
      obtain ⟨row, hfind, hfail, herr, hcont⟩ :=
        ih (set_content s k none false (some p.1) p.2) hne
      refine ⟨row, hfind, ?_, ?_, hcont⟩
      · have hcur : currentFail (set_content s k none false (some p.1) p.2) k =
            currentFail s k + 1 := by
          obtain ⟨row', hfind', _, hfail', _, _⟩ :=
            set_content_self_failure s k none (some p.1) p.2
          unfold currentFail
          rw [hfind']
          cases h : assocFind s k <;> simp [h] at hfail' <;> simp [hfail']
        rw [hcur] at hfail
        rw [hfail]
        simp [hr]
        omega
      · rw [herr]
        have : (p :: rest).getLast? = rest.getLast? := by
          rw [hr]
          simp [List.getLast?]
        rw [this]

/-- C6: for a fresh key, after N consecutive failed `set_content` calls
the row's `fail_count` is N, its `error_reason` is the last call's
reason and its `content` is null; one interleaved successful
`set_content` resets `fail_count` to 0 and clears `error_reason`. -/
theorem consecutive_failures (s : Store) (k : String)
    (rs : List (String × Int)) (h0 : assocFind s k = none) (h1 : rs ≠ []) :
    (∃ row, assocFind (apply_failures s k rs) k = some row ∧
      row.failCount = rs.length ∧
      row.errorReason = rs.getLast?.map Prod.fst ∧
      row.content = none) ∧
    (∀ c er now row,
      assocFind (set_content (apply_failures s k rs) k c true er now) k = some row →
      row.failCount = 0 ∧ row.errorReason = none ∧ row.content = c) := by
  constructor
  · obtain ⟨row, hfind, hfail, herr, hcont⟩ := apply_failures_find k rs s h1
    refine ⟨row, hfind, ?_, herr, hcont⟩
    rw [hfail]
    unfold currentFail
    rw [h0]
    simp
  · intro c er now row hrow
    obtain ⟨row', hfind, hcont, hfail, herr, _⟩ :=
      set_content_self_success (apply_failures s k rs) k c er now
    rw [hfind] at hrow
    cases hrow
    exact ⟨hfail, herr, hcont⟩

/-- Witness for C6: the spec's scenario — three consecutive failures
with reasons "timeout", "timeout", "http 500" on a fresh key "b" give
`fail_count = 3`, `error_reason = "http 500"`, `content = null`. -/
theorem consecutive_failures_witness :
    ∃ row, assocFind
        (apply_failures [] "b" [("timeout", 1), ("timeout", 2), ("http 500", 3)]) "b" =
        some row ∧
      row.failCount = 3 ∧ row.errorReason = some "http 500" ∧
      row.content = none := by
  obtain ⟨⟨row, hfind, hfail, herr, hcont⟩, -⟩ :=
    consecutive_failures [] "b" [("timeout", 1), ("timeout", 2), ("http 500", 3)]
      rfl (by decide)
  exact ⟨row, hfind, hfail, by simpa using herr, hcont⟩

/-! ### C7: batch_get_content refines get_content -/

theorem assocFind_map_mk {α : Type} (f : String → α) :
    ∀ (l : List String) (u : String), u ∈ l →
      assocFind (l.map fun x => (x, f x)) u = some (f u) := by
  intro l
  induction l with
  | nil => intro u h; cases h
  | cons x xs ih =>
    intro u h
    by_cases hx : x = u
    · subst hx
      simp [assocFind]
    · have hu : u ∈ xs := by
        rcases List.mem_cons.mp h with h | h
        · exact absurd h.symm hx
        · exact h
      simp [assocFind, hx, ih u hu]

theorem batch_value_eq_get (s : Store) (u : String) (ttl now : Int) :
    (match assocFind s u with
      | some row => batchRowValue row (now - ttl)
      | none => none) = get_content s u ttl now := by
  unfold get_content batchRowValue
  cases h : assocFind s u with
  | none => rfl
  | some row =>
    by_cases hlt : row.updatedAt > now - ttl
    · cases hc : row.content <;> simp [hlt, hc]
    · simp [hlt]

/-- C7: for every list of keys and every ttl, `batch_get_content`
returns a mapping whose keys are exactly the requested keys
(deduplicated, as the Python dict does), and the value at each
requested key equals what a single `get_content` with the same key, ttl
and time would return. -/
theorem batch_get_content_spec (s : Store) (urls : List String) (ttl now : Int) :
    ((batch_get_content s urls ttl now).map Prod.fst = urls.dedup) ∧
    (∀ u, u ∈ urls →
      assocFind (batch_get_content s urls ttl now) u =
        some (get_content s u ttl now)) := by
  constructor
  · unfold batch_get_content
    by_cases h : urls.isEmpty
    · rw [List.isEmpty_iff] at h
      subst h
      simp
    · simp [h, List.map_map, Function.comp_def]
  · intro u hu
    unfold batch_get_content
    have hne : urls.isEmpty = false := by
      rcases urls with _ | ⟨x, xs⟩
      · cases hu
      · rfl
    rw [hne]
    simp only [Bool.false_eq_true, if_false]
    rw [← batch_value_eq_get s u ttl now]
    exact assocFind_map_mk _ urls.dedup u (List.mem_dedup.mpr hu)

/-- Witness for C7 at a concrete input: a store with one fresh row,
queried for its own key. -/
theorem batch_get_content_spec_witness :
    assocFind
        (batch_get_content [("a", ⟨some "X", 0, 100, 0, none⟩)] ["a"] 50 120) "a" =
      some (get_content [("a", ⟨some "X", 0, 100, 0, none⟩)] "a" 50 120) :=
  (batch_get_content_spec [("a", ⟨some "X", 0, 100, 0, none⟩)] ["a"] 50 120).2
    "a" (by decide)

/-! ### Content extraction (src/utils.py, extract_main_content) -/

/-- Python truthiness of an `Optional[str]`: `None` and the empty string
are falsy. -/
def optStrTruthy : Option String → Bool
  | none => false
  | some s => s != ""

/-- A selected bs4 element: `html` models `str(content)` after the
script/style/iframe/noscript subtrees were decomposed, `text` models
`content.get_text(separator=" ", strip=True)` of the cleaned element. -/
structure Tag where
  html : String
  text : String
deriving DecidableEq

/-- Abstract view of a successfully parsed `BeautifulSoup(html,
"html.parser")` document: the stripped text of `soup.find("title")`
when present, the results of `soup.select_one` for the six selectors
`article, main, .post-content, .entry-content, .article-content,
#content` in order, and `soup.find_all("div")`. -/
structure Soup where
  titleText : Option String
  selectorHits : List (Option Tag)
  divs : List Tag
deriving DecidableEq

/-- First selector that yields a match wins (the `for selector in [...]:
if content := soup.select_one(selector): break` loop). -/
def firstSome : List (Option Tag) → Option Tag
  | [] => none
  | some t :: _ => some t
  | none :: rest => firstSome rest

/-- Fallback: the div with the most text (`max(divs, key=lambda d:
len(d.get_text()))`; Python's `max` keeps the first maximal element,
which the strict comparison in the fold reproduces). -/
def largestDiv : List Tag → Option Tag
  | [] => none
  | d :: ds =>
    some (ds.foldl (fun best x => if x.text.length > best.text.length then x else best) d)

/-- The dict built by `extract_main_content` (src/utils.py lines 52-56),
keys `content_html`, `content_text`, `title`; also the shape of the
JSON object cached and merged during fulfillment (src/main.py). -/
structure ExtractDict where
  content_html : Option String
  content_text : Option String
  title : Option String
deriving DecidableEq

/-- `extract_main_content` (src/utils.py lines 47-99).  The bs4 parse is
an oracle `Option Soup`; `none` models `BeautifulSoup` raising, in which
case the `except` branch returns the still-untouched all-null `result`
dict.  On a parsed document it fills `title`, picks the first matching
selector or else the largest div, and emits the cleaned html/text of
the chosen container.  Totality of this definition reflects that the
Python function catches every exception and never raises outward. -/
def extract_main_content (parsed : Option Soup) : ExtractDict :=
  match parsed with
  | none => ⟨none, none, none⟩
  | some soup =>
    let title := soup.titleText
    let content :=
      match firstSome soup.selectorHits with
      | some t => some t
      | none => largestDiv soup.divs
    match content with
    | some t => ⟨some t.html, some t.text, title⟩
    | none => ⟨none, none, title⟩

/-- C8: the content extractor never raises to its caller (it is a total
function of the parse outcome), and for every input on which the
internal parse fails it returns the all-null result. -/
theorem extract_parse_failure_all_null (parseHtml : String → Option Soup)
    (html : String) (h : parseHtml html = none) :
    extract_main_content (parseHtml html) = ⟨none, none, none⟩ := by
  rw [h]
  rfl

/-- Witness for C8 at a concrete input: a parse oracle that fails on the
given document. -/
theorem extract_parse_failure_all_null_witness :
    (fun _ : String => (none : Option Soup)) "<html>" = none ∧
      extract_main_content ((fun _ : String => (none : Option Soup)) "<html>") =
        ⟨none, none, none⟩ :=
  ⟨rfl, extract_parse_failure_all_null (fun _ => none) "<html>" rfl⟩

/-! ### Fulfillment merge and cache write-back (src/main.py) -/

/-- A feed item as the fulfillment step sees it (src/models.py
`FeedItem`: `title` is a required string, the content fields are
optional). -/
structure Item where
  url : String
  title : String
  content_html : Option String
  content_text : Option String
deriving DecidableEq

/-- The per-item merge of a candidate extraction dict, as written twice
in `fulfill_items_content` (src/main.py lines 164-174 for cached
content and lines 199-210 for freshly fetched content, with identical
bodies): `content_html`/`content_text` are overwritten only when the
candidate value is truthy, and the title is overwritten when the
candidate title is truthy and `(not item.title or len(item.title) <
10)`. -/
def applyContentToItem (item : Item) (c : ExtractDict) : Item :=
  let i1 := if optStrTruthy c.content_html
    then { item with content_html := c.content_html } else item
  let i2 := if optStrTruthy c.content_text
    then { i1 with content_text := c.content_text } else i1
  if optStrTruthy c.title && (i2.title == "" || decide (i2.title.length < 10))
  then { i2 with title := c.title.getD i2.title } else i2

/-- C2 counterexample input/behavior: an existing 5-character title
(shorter than the 10-character threshold) is replaced by a non-empty
2-character candidate, although the candidate is not strictly longer;
the claim says such a candidate must leave the title unchanged. -/
theorem title_merge_claim_counterexample :
    (applyContentToItem ⟨"u", "Short", none, none⟩ ⟨none, none, some "AB"⟩).title = "AB" ∧
      ¬ ("Short".length < "AB".length) := by
  constructor
  · rfl
  · decide

/-- C2 as amended: the title is replaced by the candidate exactly when
the candidate title is truthy (non-null and non-empty) and the existing
title is empty or shorter than 10 characters; the candidate's length is
never compared with the existing title's. -/
theorem title_merge_behavior (item : Item) (c : ExtractDict) :
    (applyContentToItem item c).title =
      if optStrTruthy c.title && (item.title == "" || decide (item.title.length < 10))
      then c.title.getD item.title else item.title := by
  unfold applyContentToItem
  cases h1 : optStrTruthy c.content_html <;>
    cases h2 : optStrTruthy c.content_text <;>
      simp only [Bool.false_eq_true, if_false, if_true] <;>
        split <;> rfl

/-- `json.dumps` of an optional string field (escaping of special
characters is elided; no claim inspects the serialized text). -/
def optStrJson : Option String → String
  | none => "null"
  | some s => "\"" ++ s ++ "\""

/-- `json.dumps(content)` for the extraction dict stored by
`fulfill_items_content` (src/main.py line 193). -/
def serializeExtract (c : ExtractDict) : String :=
  "\x7b\"content_html\": " ++ optStrJson c.content_html ++
    ", \"content_text\": " ++ optStrJson c.content_text ++
    ", \"title\": " ++ optStrJson c.title ++ "\x7d"

/-- The cache write-back loop body of `fulfill_items_content`
(src/main.py lines 191-197).  `fetch_items_content` (src/network.py
lines 84-107) maps each url to the pair `(content, error)`, but the
loop unpacks the pair as `(content, success)`, so the name `success`
below actually carries the fetch error message.  `if content and
success:` tests the truthiness of the dict (non-empty, hence truthy
whenever present) and of the error string; `db.set_content(url, None,
success, error_reason)` passes the error string as the `success`
parameter, whose truthiness picks the branch inside `set_content`. -/
def writeFulfillResult (s : Store) (url : String) (content : Option ExtractDict)
    (success : Option String) (now : Int) : Store :=
  if content.isSome && optStrTruthy success then
    set_content s url (content.map serializeExtract) true none now
  else
    let errorReason := match content with
      | some _ => (none : Option String)
      | none => some "Unknown error"
    set_content s url none (optStrTruthy success) errorReason now

/-- C1 evaluated at the two realizable inputs (src/network.py always
returns either `(content, None)` or `(None, error)`): a fetch-and-
extract that succeeds is recorded as a cache failure with null content,
`fail_count` incremented to 1 and no error reason, and a fetch that
fails is recorded as a cache success with null content and
`fail_count` reset to 0 — the opposite of the claimed (and intended)
success/failure semantics, because the write-back loop unpacks the
`(content, error)` pairs as `(content, success)`. -/
theorem fulfill_cache_write_inverted :
    assocFind
        (writeFulfillResult [] "u" (some ⟨some "<p>x</p>", some "x", some "T"⟩) none 5)
        "u" = some ⟨none, 5, 5, 1, none⟩ ∧
    assocFind
        (writeFulfillResult [] "u" none (some "TimeoutException: timed out") 5)
        "u" = some ⟨none, 5, 5, 0, none⟩ := by
  constructor
  · rfl
  · rfl

/-! ### Feed acquisition write-back (src/main.py, process_feeds) -/

/-- The per-result body of the feed-acquisition loop (src/main.py lines
254-265): the result is written to the cache first with `success =
error is None`, then `if not content:` (None or empty string) the url
is skipped with a fetch-failure warning, else the content is parsed by
the external entry parser. -/
def process_fetch_result (s : Store) (url : String) (content : Option String)
    (error : Option String) (now : Int) (parse : String → List Item) :
    Store × List Item :=
  let s1 := set_content s url content error.isNone error now
  match content with
  | some c => if c = "" then (s1, []) else (s1, parse c)
  | none => (s1, [])

/-- C10: a fetch result with no error but empty-string content is
written to the cache as a success (`fail_count` reset to 0,
`error_reason` cleared, the empty content stored), yet it is skipped
for parsing exactly like a failed fetch and contributes zero items. -/
theorem empty_content_success_skipped (s : Store) (url : String) (now : Int)
    (parse : String → List Item) :
    (∃ row, assocFind (process_fetch_result s url (some "") none now parse).1 url =
        some row ∧
      row.content = some "" ∧ row.failCount = 0 ∧ row.errorReason = none) ∧
    (process_fetch_result s url (some "") none now parse).2 = [] := by
  constructor
  · obtain ⟨row, hfind, hcont, hfail, herr, _⟩ :=
      set_content_self_success s url (some "") none now
    exact ⟨row, hfind, hcont, hfail, herr⟩
  · rfl

/-! ### C9: bounded concurrency of the fetcher -/

/-- State of the fetcher's counting semaphore
(`asyncio.Semaphore(max_concurrent)`, src/network.py line 20):
`available` free slots and `inflight` requests currently between the
semaphore acquire and release. -/
structure FetcherState where
  available : Nat
  inflight : Nat
deriving DecidableEq

/-- Transitions of one request under `async with self.semaphore` in
`fetch_url`/`fetch_item_content` (src/network.py lines 30 and 72): a
request enters flight only by acquiring a free slot, and the slot is
released on every outcome — normal return, raised exception, or
timeout (a timeout surfaces as an exception of the awaited GET). -/
inductive FetchStep : FetcherState → FetcherState → Prop where
  | acquire (s : FetcherState) (h : 0 < s.available) :
      FetchStep s ⟨s.available - 1, s.inflight + 1⟩
  | finish_ok (s : FetcherState) (h : 0 < s.inflight) :
      FetchStep s ⟨s.available + 1, s.inflight - 1⟩
  | finish_err (s : FetcherState) (h : 0 < s.inflight) :
      FetchStep s ⟨s.available + 1, s.inflight - 1⟩
  | finish_timeout (s : FetcherState) (h : 0 < s.inflight) :
      FetchStep s ⟨s.available + 1, s.inflight - 1⟩

/-- States reachable from a freshly constructed `FeedFetcher` with
`max_concurrent` free slots and nothing in flight. -/
inductive FetcherReachable (m : Nat) : FetcherState → Prop where
  | init : FetcherReachable m ⟨m, 0⟩
  | step (s t : FetcherState) (hs : FetcherReachable m s)
      (ht : FetchStep s t) : FetcherReachable m t

theorem fetcher_slot_invariant (m : Nat) (s : FetcherState)
    (h : FetcherReachable m s) : s.available + s.inflight = m := by
  induction h with
  | init => simp
  | step s t hs ht ih =>
    cases ht <;> simp_all <;> omega

/-- C9: in every reachable state of the fetcher, at most
`max_concurrent` requests are simultaneously in flight: a request
enters flight only after acquiring one of the `max_concurrent` slots
and the slot is released on every outcome. -/
theorem fetcher_concurrency_bound (m : Nat) (s : FetcherState)
    (h : FetcherReachable m s) : s.inflight ≤ m := by
  have := fetcher_slot_invariant m s h
  omega

/-- Witness for C9 at the concrete bound of the spec's scenario
(`max_concurrent = 2`). -/
theorem fetcher_concurrency_bound_witness :
    (FetcherState.mk 2 0).inflight ≤ 2 :=
  fetcher_concurrency_bound 2 ⟨2, 0⟩ FetcherReachable.init

end FeedForger
